import Mathlib

/-!
Verification of the watermark-removal core.

A shallow embedding of `remove_watermark.py`.  Videos are `Fin`-indexed
functions `Fin T → Fin H → Fin W → Fin 3 → α` (the THWC layout the code
operates in internally), RGBA images are `Fin H → Fin W → Fin 4 → α`.
The purely algebraic parts (background recovery, compositing, cropping,
argmax) are stated over a general linearly ordered field so they can be
evaluated on rational inputs; the frequency-domain detector is embedded
over the reals with the textbook 2-D discrete Fourier transform, matching
the numpy execution path of the code.
-/

namespace RW

/-- Embedding of `np.clip(x, lo, hi)` / `torch.clamp`: elementwise clamp, computed as
the minimum with `hi` of the maximum with `lo`. -/
def clip {α : Type} [LinearOrder α] (x lo hi : α) : α :=
  min (max x lo) hi

/-- The slice `rgba_watermark[:, :, :3]` — the RGB slice of an RGBA image
(channel `c < 3` of the slice is channel `c` of the RGBA image). -/
def watermark_rgb {α : Type} {H W : ℕ} (rgba : Fin H → Fin W → Fin 4 → α) :
    Fin H → Fin W → Fin 3 → α :=
  fun y x c => rgba y x (Fin.castSucc c)

/-- The slice `rgba_watermark[:, :, 3:]` — the alpha slice of an RGBA image. -/
def watermark_alpha {α : Type} {H W : ℕ} (rgba : Fin H → Fin W → Fin 4 → α) :
    Fin H → Fin W → α :=
  fun y x => rgba y x 3

/-- Embedding of `recover_background(composite_images, rgba_watermark)` from
`remove_watermark.py`: per pixel and per channel,
`clip((composite - alpha * rgb) / (1 - alpha), 0, 1)`, broadcast over the
time axis. -/
def recover_background {α : Type} [LinearOrderedField α] {T H W : ℕ}
    (composite_images : Fin T → Fin H → Fin W → Fin 3 → α)
    (rgba_watermark : Fin H → Fin W → Fin 4 → α) :
    Fin T → Fin H → Fin W → Fin 3 → α :=
  fun t y x c =>
    clip ((composite_images t y x c -
        watermark_alpha rgba_watermark y x * watermark_rgb rgba_watermark y x c) /
        (1 - watermark_alpha rgba_watermark y x)) 0 1

/-- Guarded variant of `recover_background` that makes the division-by-zero
branch explicit: it refuses (returns `none`) exactly when some pixel has a
zero denominator `1 - alpha`.  Used to state that this branch is
unreachable when the alpha channel stays strictly below 1. -/
def recover_background_checked {α : Type} [LinearOrderedField α] [DecidableEq α]
    {T H W : ℕ}
    (composite_images : Fin T → Fin H → Fin W → Fin 3 → α)
    (rgba_watermark : Fin H → Fin W → Fin 4 → α) :
    Option (Fin T → Fin H → Fin W → Fin 3 → α) :=
  if (∀ y x, (1 : α) - watermark_alpha rgba_watermark y x ≠ 0) then
    some (recover_background composite_images rgba_watermark)
  else
    none

/-- Index arithmetic of `np.roll` along one axis: output index `i` reads
input index `(i - s) mod n`. -/
def rollIdx {n : ℕ} (i : Fin n) (s : ℤ) : Fin n :=
  ⟨(((i.val : ℤ) - s) % (n : ℤ)).toNat, by
    have hn : 0 < (n : ℤ) := by exact_mod_cast i.pos
    have h1 : 0 ≤ ((i.val : ℤ) - s) % (n : ℤ) := Int.emod_nonneg _ (by omega)
    have h2 : ((i.val : ℤ) - s) % (n : ℤ) < (n : ℤ) := Int.emod_lt_of_pos _ hn
    omega⟩

/-- Embedding of `np.roll(img, (s.1, s.2), axis=(0, 1))` on an H×W×C image: circular
shift by `s.1` along the height axis and `s.2` along the width axis. -/
def np_roll {α : Type} {H W C : ℕ} (img : Fin H → Fin W → Fin C → α)
    (s : ℤ × ℤ) : Fin H → Fin W → Fin C → α :=
  fun y x c => img (rollIdx y s.1) (rollIdx x s.2) c

/-- The alpha-compositing synthesis from the spec's testable property
(§8, glossary): `composite = alpha * overlay_rgb + (1 - alpha) * background`,
per pixel, per channel, for every frame. -/
def alpha_composite {α : Type} [LinearOrderedField α] {T H W : ℕ}
    (rgba : Fin H → Fin W → Fin 4 → α)
    (background : Fin T → Fin H → Fin W → Fin 3 → α) :
    Fin T → Fin H → Fin W → Fin 3 → α :=
  fun t y x c =>
    watermark_alpha rgba y x * watermark_rgb rgba y x c +
      (1 - watermark_alpha rgba y x) * background t y x c

/-- The positions of a 2-D array attaining its maximum value. -/
def maximizers {α : Type} [LinearOrder α] [∀ a b : α, Decidable (a ≤ b)]
    {H W : ℕ} (corr : Fin H → Fin W → α) : Finset (Fin H × Fin W) :=
  Finset.univ.filter fun p => ∀ q : Fin H × Fin W, corr q.1 q.2 ≤ corr p.1 p.2

/-- The row-major flat indices (`y * W + x`) of the maximizing positions. -/
def flat_ranks {α : Type} [LinearOrder α] [∀ a b : α, Decidable (a ≤ b)]
    {H W : ℕ} (corr : Fin H → Fin W → α) : Finset ℕ :=
  (maximizers corr).image fun p => p.1.val * W + p.2.val

/-- Embedding of `np.argmax(corr)` on a 2-D array: the row-major flat index of the
first position attaining the maximum value.  Embedded via its documented
semantics: the smallest row-major rank among all positions attaining the
maximum.  (Junk value 0 on empty arrays, where numpy raises.) -/
def np_argmax {α : Type} [LinearOrder α] [∀ a b : α, Decidable (a ≤ b)]
    {H W : ℕ} (corr : Fin H → Fin W → α) : ℕ :=
  if h : (flat_ranks corr).Nonempty then (flat_ranks corr).min' h else 0

/-- Embedding of `np.unravel_index(idx, (H, W))` in row-major order: `(idx / W, idx % W)`. -/
def np_unravel_index (idx W : ℕ) : ℕ × ℕ :=
  (idx / W, idx % W)

/-- The argmax-to-shift step of `best_shift`: locate the maximum of the
correlation surface, then offset it by half the watermark's dimensions,
`dy = max_loc[0] - H // 2`, `dx = max_loc[1] - W // 2`; returns `(dx, dy)`.
(In `best_shift` the watermark has the same H×W shape as the surface.) -/
def shift_from_corr {α : Type} [LinearOrder α] [∀ a b : α, Decidable (a ≤ b)]
    {H W : ℕ} (corr : Fin H → Fin W → α) : ℤ × ℤ :=
  (((np_unravel_index (np_argmax corr) W).2 : ℤ) - ((W / 2 : ℕ) : ℤ),
   ((np_unravel_index (np_argmax corr) W).1 : ℤ) - ((H / 2 : ℕ) : ℤ))

/-- The 2-D discrete Fourier transform `np.fft.fft2` / `torch.fft.fft2`:
`X[k, l] = Σ_{y, x} m[y, x] · exp(-2πi (k y / H + l x / W))`. -/
noncomputable def fft2 {H W : ℕ} (m : Fin H → Fin W → ℂ) :
    Fin H → Fin W → ℂ :=
  fun k l => ∑ y : Fin H, ∑ x : Fin W,
    m y x * Complex.exp (-(2 * (Real.pi : ℂ) * Complex.I) *
      ((((k.val * y.val : ℕ) : ℝ) / (H : ℝ) + ((l.val * x.val : ℕ) : ℝ) / (W : ℝ) : ℝ) : ℂ))

/-- The inverse 2-D discrete Fourier transform `np.fft.ifft2`:
`x[y, x] = (1 / (H W)) Σ_{k, l} m[k, l] · exp(+2πi (k y / H + l x / W))`. -/
noncomputable def ifft2 {H W : ℕ} (m : Fin H → Fin W → ℂ) :
    Fin H → Fin W → ℂ :=
  fun y x => (∑ k : Fin H, ∑ l : Fin W,
    m k l * Complex.exp ((2 * (Real.pi : ℂ) * Complex.I) *
      ((((k.val * y.val : ℕ) : ℝ) / (H : ℝ) + ((l.val * x.val : ℕ) : ℝ) / (W : ℝ) : ℝ) : ℂ))) /
    (((H * W : ℕ) : ℝ) : ℂ)

/-- Embedding of `np.fft.fftshift` on a 2-D array: circular roll by `n // 2` along each
axis, relocating the zero-frequency component to the centre. -/
def fftshift {H W : ℕ} (m : Fin H → Fin W → ℂ) : Fin H → Fin W → ℂ :=
  fun i j => m (rollIdx i ((H / 2 : ℕ) : ℤ)) (rollIdx j ((W / 2 : ℕ) : ℤ))

/-- Embedding of `cross_corr(img1, img2)` from `get_shifts`: FFT both matrices, multiply
the first by the conjugate of the second, inverse FFT, recentre the
spectrum, take the real part. -/
noncomputable def cross_corr {H W : ℕ} (img1 img2 : Fin H → Fin W → ℝ) :
    Fin H → Fin W → ℝ :=
  fun i j =>
    (fftshift (ifft2 (fun k l =>
        fft2 (fun y x => ((img1 y x : ℝ) : ℂ)) k l *
          star (fft2 (fun y x => ((img2 y x : ℝ) : ℂ)) k l))) i j).re

/-- Embedding of `best_shift(frame, watermark)` from `get_shifts`: the shift of the
maximum of the cross-correlation surface relative to the watermark's
centre; returns `(dx, dy)`. -/
noncomputable def best_shift {H W : ℕ} (frame watermark : Fin H → Fin W → ℝ) :
    ℤ × ℤ :=
  shift_from_corr (cross_corr frame watermark)

/-- Embedding of `as_grayscale_image` (external `rp` helper): modelled as the channel
mean; no claim below depends on the particular grayscale weights. -/
noncomputable def as_grayscale_image {H W : ℕ}
    (img : Fin H → Fin W → Fin 3 → ℝ) : Fin H → Fin W → ℝ :=
  fun y x => (img y x 0 + img y x 1 + img y x 2) / 3

/-- Embedding of `blend_images(bottom, top)` (external `rp` helper) with a scalar
bottom: alpha-composite the RGBA top image over the constant bottom,
yielding an RGB image. -/
noncomputable def blend_images {H W : ℕ} (bottom : ℝ)
    (top : Fin H → Fin W → Fin 4 → ℝ) : Fin H → Fin W → Fin 3 → ℝ :=
  fun y x c =>
    watermark_alpha top y x * watermark_rgb top y x c +
      (1 - watermark_alpha top y x) * bottom

/-- Unnormalised 1-D Gaussian weight at integer offset `i`. -/
noncomputable def gauss_weight (sigma : ℝ) (i : ℤ) : ℝ :=
  Real.exp (-((i : ℝ) ^ 2) / (2 * sigma ^ 2))

/-- Embedding of `cv_gauss_blur(img, sigma)` (external `rp`/OpenCV helper): modelled as
a normalised Gaussian-weighted circular convolution of the given radius;
no claim below depends on the border convention or the exact kernel. -/
noncomputable def cv_gauss_blur {H W : ℕ} (img : Fin H → Fin W → Fin 3 → ℝ)
    (sigma : ℝ) (radius : ℕ) : Fin H → Fin W → Fin 3 → ℝ :=
  fun y x c =>
    (∑ dy in Finset.Icc (-(radius : ℤ)) (radius : ℤ),
      ∑ dx in Finset.Icc (-(radius : ℤ)) (radius : ℤ),
        gauss_weight sigma dy * gauss_weight sigma dx *
          img (rollIdx y (-dy)) (rollIdx x (-dx)) c) /
    (∑ dy in Finset.Icc (-(radius : ℤ)) (radius : ℤ),
      ∑ dx in Finset.Icc (-(radius : ℤ)) (radius : ℤ),
        gauss_weight sigma dy * gauss_weight sigma dx)

/-- Embedding of `get_shifts()` from `remove_watermark.py`: rescale the watermark to a
zero-mean template (blend 50/50 toward mid-gray, subtract the mid-gray
constant), high-pass the average frame (subtract its Gaussian blur,
σ = 20), convert both to grayscale, and run `best_shift`. -/
noncomputable def get_shifts {H W : ℕ}
    (avg_frame : Fin H → Fin W → Fin 3 → ℝ)
    (watermark : Fin H → Fin W → Fin 4 → ℝ) : ℤ × ℤ :=
  best_shift
    (as_grayscale_image fun y x c =>
      avg_frame y x c - cv_gauss_blur avg_frame 20 80 y x c)
    (as_grayscale_image fun y x c =>
      blend_images (1 / 2) watermark y x c - 1 / 2)

/-- Embedding of `video.mean(0)`: the elementwise temporal mean of all frames. -/
noncomputable def temporal_mean {T H W : ℕ}
    (video : Fin T → Fin H → Fin W → Fin 3 → ℝ) :
    Fin H → Fin W → Fin 3 → ℝ :=
  fun y x c => (∑ t : Fin T, video t y x c) / (T : ℝ)

/-- Embedding of `crop_image(watermark, h, w)` on the success path: the top-left H×W
crop of an image whose dimensions `H + a`, `W + b` are at least the
requested ones (the failing path is modelled by `crop_to` below). -/
def crop_image {α : Type} {H W a b C : ℕ}
    (img : Fin (H + a) → Fin (W + b) → Fin C → α) :
    Fin H → Fin W → Fin C → α :=
  fun y x c =>
    img (Fin.castLE (Nat.le_add_right H a) y) (Fin.castLE (Nat.le_add_right W b) x) c

/-- Modelled from the spec: `crop_to(h, w)` of the Watermark Asset (§4.2).
The implementation lives in the external `rp.crop_image`, which is not
part of this repository; per the spec it returns a top-left crop of
exactly h×w and fails — surfaced, never silently padded — if `h` or `w`
exceed the template's dimensions. -/
def crop_to {α : Type} {Hw Ww : ℕ} (tmpl : Fin Hw → Fin Ww → Fin 4 → α)
    (h w : ℕ) : Option (Fin h → Fin w → Fin 4 → α) :=
  if hc : h ≤ Hw ∧ w ≤ Ww then
    some (fun y x c => tmpl (Fin.castLE hc.1 y) (Fin.castLE hc.2 x) c)
  else
    none

/-- Embedding of `remove_watermark(video)` on the canonical THWC path of
`remove_watermark.py` (floating input, watermark template passed
explicitly in place of the on-disk `watermark.exr` asset, whose loading is
an external collaborator): average the frames, crop the template to the
frame size, detect the shift, roll the template by `(dy, dx)`, and recover
the background of every frame. -/
noncomputable def remove_watermark {T H W a b : ℕ}
    (video : Fin T → Fin H → Fin W → Fin 3 → ℝ)
    (watermark_image : Fin (H + a) → Fin (W + b) → Fin 4 → ℝ) :
    Fin T → Fin H → Fin W → Fin 3 → ℝ :=
  recover_background video
    (np_roll (crop_image watermark_image)
      ((get_shifts (temporal_mean video) (crop_image watermark_image)).2,
       (get_shifts (temporal_mean video) (crop_image watermark_image)).1))

/-- Embedding of the einops rearrange from T C H W to T H W C. -/
def rearrange_tchw_to_thwc {α : Type} {T H W : ℕ}
    (video : Fin T → Fin 3 → Fin H → Fin W → α) :
    Fin T → Fin H → Fin W → Fin 3 → α :=
  fun t y x c => video t c y x

/-- Embedding of the einops rearrange from T H W C to T C H W. -/
def rearrange_thwc_to_tchw {α : Type} {T H W : ℕ}
    (video : Fin T → Fin H → Fin W → Fin 3 → α) :
    Fin T → Fin 3 → Fin H → Fin W → α :=
  fun t c y x => video t y x c

/-- The TCHW-form branch of `remove_watermark`: rearrange to THWC,
run the canonical path, rearrange the result back to TCHW. -/
noncomputable def remove_watermark_tchw {T H W a b : ℕ}
    (video : Fin T → Fin 3 → Fin H → Fin W → ℝ)
    (watermark_image : Fin (H + a) → Fin (W + b) → Fin 4 → ℝ) :
    Fin T → Fin 3 → Fin H → Fin W → ℝ :=
  rearrange_thwc_to_tchw
    (remove_watermark (rearrange_tchw_to_thwc video) watermark_image)

/-- The `_is_uint8(video)` branch of `remove_watermark`: an 8-bit integer
video (values in `Fin 256`) is divided by 255 to floating values before
the canonical path runs. -/
noncomputable def remove_watermark_uint8 {T H W a b : ℕ}
    (video : Fin T → Fin H → Fin W → Fin 3 → Fin 256)
    (watermark_image : Fin (H + a) → Fin (W + b) → Fin 4 → ℝ) :
    Fin T → Fin H → Fin W → Fin 3 → ℝ :=
  remove_watermark (fun t y x c => (((video t y x c).val : ℝ) / 255)) watermark_image

/-- A runtime value as seen by the format-adapter dispatchers: a numpy
array, a torch tensor, or anything else (`unsupported`, carrying the name
of its type, matching neither `is_numpy_array` nor `is_torch_tensor`). -/
inductive PyVal (α : Type) where
  | numpy : α → PyVal α
  | torch : α → PyVal α
  | unsupported : String → PyVal α

/-- Embedding of `_fft2(x)`: dispatch `fft2` by backend; `TypeError` otherwise. -/
noncomputable def py_fft2 {H W : ℕ} (x : PyVal (Fin H → Fin W → ℂ)) :
    Except String (PyVal (Fin H → Fin W → ℂ)) :=
  match x with
  | .numpy a => .ok (.numpy (fft2 a))
  | .torch a => .ok (.torch (fft2 a))
  | .unsupported t => .error ("Unsupported input type: " ++ t)

/-- Embedding of `_ifft2(x)`: dispatch `ifft2` by backend; `TypeError` otherwise. -/
noncomputable def py_ifft2 {H W : ℕ} (x : PyVal (Fin H → Fin W → ℂ)) :
    Except String (PyVal (Fin H → Fin W → ℂ)) :=
  match x with
  | .numpy a => .ok (.numpy (ifft2 a))
  | .torch a => .ok (.torch (ifft2 a))
  | .unsupported t => .error ("Unsupported input type: " ++ t)

/-- Embedding of `_fftshift(x)`: dispatch `fftshift` by backend; `TypeError` otherwise. -/
def py_fftshift {H W : ℕ} (x : PyVal (Fin H → Fin W → ℂ)) :
    Except String (PyVal (Fin H → Fin W → ℂ)) :=
  match x with
  | .numpy a => .ok (.numpy (fftshift a))
  | .torch a => .ok (.torch (fftshift a))
  | .unsupported t => .error ("Unsupported input type: " ++ t)

/-- Embedding of `_clip(x, min_val, max_val)`: dispatch elementwise clip by backend;
`TypeError` otherwise. -/
noncomputable def py_clip {T H W C : ℕ} (x : PyVal (Fin T → Fin H → Fin W → Fin C → ℝ))
    (min_val max_val : ℝ) :
    Except String (PyVal (Fin T → Fin H → Fin W → Fin C → ℝ)) :=
  match x with
  | .numpy a => .ok (.numpy (fun t y x c => clip (a t y x c) min_val max_val))
  | .torch a => .ok (.torch (fun t y x c => clip (a t y x c) min_val max_val))
  | .unsupported t => .error ("Unsupported input type: " ++ t)

/-- Embedding of `_roll(x, shift, dims=(0, 1))`: dispatch the circular roll by backend;
`TypeError` otherwise. -/
def py_roll {H W C : ℕ} (x : PyVal (Fin H → Fin W → Fin C → ℝ)) (s : ℤ × ℤ) :
    Except String (PyVal (Fin H → Fin W → Fin C → ℝ)) :=
  match x with
  | .numpy a => .ok (.numpy (np_roll a s))
  | .torch a => .ok (.torch (np_roll a s))
  | .unsupported t => .error ("Unsupported input type: " ++ t)

/-- Embedding of `_default_form(x)`: numpy videos default to THWC, torch videos to
TCHW; `TypeError` otherwise. -/
def py_default_form {α : Type} (x : PyVal α) : Except String String :=
  match x with
  | .numpy _ => .ok "THWC"
  | .torch _ => .ok "TCHW"
  | .unsupported t => .error ("Unsupported input type: " ++ t)

/-- Embedding of `_like(x, target)`: convert `x` to `target`'s backend (value
preserved); `TypeError` when either operand matches neither backend. -/
def py_like {α : Type} (x target : PyVal α) : Except String (PyVal α) :=
  match x, target with
  | .numpy a, .numpy _ => .ok (.numpy a)
  | .torch a, .torch _ => .ok (.torch a)
  | .torch a, .numpy _ => .ok (.numpy a)
  | .numpy a, .torch _ => .ok (.torch a)
  | _, _ => .error "Unsupported input types"

/-- The rational 1/2, given as an explicit numerator/denominator pair so
that the kernel can evaluate comparisons on it. -/
def half : ℚ :=
  ⟨1, 2, by decide, Nat.coprime_one_left 2⟩

/-- Concrete flat mid-gray 1×1×1 video over ℚ, used to witness the
recovery theorems on an explicit input. -/
def wit_frame : Fin 1 → Fin 1 → Fin 1 → Fin 3 → ℚ :=
  fun _ _ _ _ => half

/-- Concrete 1×1 RGBA watermark with alpha ≡ 0. -/
def wit_rgba0 : Fin 1 → Fin 1 → Fin 4 → ℚ :=
  fun _ _ c => if c.val = 3 then 0 else 1

/-- Concrete 1×1 RGBA watermark with alpha ≡ 1/2. -/
def wit_rgba : Fin 1 → Fin 1 → Fin 4 → ℚ :=
  fun _ _ c => if c.val = 3 then half else 1

/-- Concrete 2×2 correlation surface with a tie between positions (0,1)
and (1,0); row-major first occurrence of the maximum is (0,1). -/
def wit_corr : Fin 2 → Fin 2 → ℕ :=
  fun i j =>
    if i.val = 0 ∧ j.val = 1 then 5
    else if i.val = 1 ∧ j.val = 0 then 5
    else 1

/-- Concrete 2×3 RGBA template used to witness the crop contract. -/
def wit_tmpl : Fin 2 → Fin 3 → Fin 4 → ℕ :=
  fun _ _ _ => 5

/-- Concrete flat mid-gray 1-frame 2×2 background over ℝ. -/
noncomputable def cx_background : Fin 1 → Fin 2 → Fin 2 → Fin 3 → ℝ :=
  fun _ _ _ _ => 1 / 2

/-- Concrete degenerate 2×2 RGBA watermark over ℝ: constant RGB 1/4 and
alpha ≡ 0 (alpha lies in [0,1) everywhere, as the round-trip claim
allows). -/
noncomputable def cx_watermark : Fin 2 → Fin 2 → Fin 4 → ℝ :=
  fun _ _ c => if c.val < 3 then 1 / 4 else 0

/-- C1: for every composite frame and RGBA watermark, `recover_background`
returns `clip((composite - alpha * rgb) / (1 - alpha), 0, 1)` at every
pixel and colour channel independently. -/
theorem recover_background_formula {α : Type} [LinearOrderedField α] {T H W : ℕ}
    (composite_images : Fin T → Fin H → Fin W → Fin 3 → α)
    (rgba_watermark : Fin H → Fin W → Fin 4 → α)
    (t : Fin T) (y : Fin H) (x : Fin W) (c : Fin 3) :
    recover_background composite_images rgba_watermark t y x c =
      clip ((composite_images t y x c -
          rgba_watermark y x 3 * rgba_watermark y x (Fin.castSucc c)) /
          (1 - rgba_watermark y x 3)) 0 1 :=
  rfl

/-- C4: if the watermark's alpha is 0 at every pixel, recovery is exactly
the identity on every frame with values in [0,1], for any watermark RGB. -/
theorem recover_background_zero_alpha {α : Type} [LinearOrderedField α] {T H W : ℕ}
    (frame : Fin T → Fin H → Fin W → Fin 3 → α)
    (rgba : Fin H → Fin W → Fin 4 → α)
    (hrange : ∀ t y x c, 0 ≤ frame t y x c ∧ frame t y x c ≤ 1)
    (halpha : ∀ y x, watermark_alpha rgba y x = 0) :
    recover_background frame rgba = frame := by
  funext t y x c
  have h := hrange t y x c
  simp only [recover_background, clip, halpha, zero_mul, sub_zero, div_one]
  rw [max_eq_left h.1, min_eq_left h.2]

/-- Witness for C4 at a concrete input. -/
theorem recover_background_zero_alpha_witness :
    (∀ t y x c, 0 ≤ wit_frame t y x c ∧ wit_frame t y x c ≤ 1) ∧
    (∀ y x, watermark_alpha wit_rgba0 y x = 0) ∧
    recover_background wit_frame wit_rgba0 = wit_frame :=
  ⟨by decide, by decide,
    recover_background_zero_alpha wit_frame wit_rgba0 (by decide) (by decide)⟩

/-- C10: when the watermark alpha is strictly below 1 at every pixel, no
denominator `1 - alpha` vanishes, so the division-guarded recovery never
takes its failure branch and agrees with the unguarded recovery. -/
theorem recover_background_alpha_lt_one {α : Type} [LinearOrderedField α]
    [DecidableEq α] {T H W : ℕ}
    (composite_images : Fin T → Fin H → Fin W → Fin 3 → α)
    (rgba : Fin H → Fin W → Fin 4 → α)
    (halpha : ∀ y x, watermark_alpha rgba y x < 1) :
    (∀ y x, (1 : α) - watermark_alpha rgba y x ≠ 0) ∧
    recover_background_checked composite_images rgba =
      some (recover_background composite_images rgba) := by
  have hne : ∀ y x, (1 : α) - watermark_alpha rgba y x ≠ 0 := fun y x =>
    sub_ne_zero_of_ne (halpha y x).ne'
  refine ⟨hne, ?_⟩
  simp only [recover_background_checked]
  rw [if_pos hne]

/-- Witness for C10 at a concrete input. -/
theorem recover_background_alpha_lt_one_witness :
    (∀ y x, watermark_alpha wit_rgba y x < 1) ∧
    ((∀ y x, (1 : ℚ) - watermark_alpha wit_rgba y x ≠ 0) ∧
      recover_background_checked wit_frame wit_rgba =
        some (recover_background wit_frame wit_rgba)) :=
  ⟨by decide, recover_background_alpha_lt_one wit_frame wit_rgba (by decide)⟩

/-- C2 (amended, recovery half): synthesizing
`composite = alpha * rgb + (1 - alpha) * background` with the watermark
rolled to any integer shift `(dx, dy)` and recovering with that same
shifted watermark returns the background exactly (hence within any
positive tolerance), whenever the background lies in [0,1] and the alpha
channel stays strictly below 1. -/
theorem recover_background_roundtrip {α : Type} [LinearOrderedField α] {T H W : ℕ}
    (rgba : Fin H → Fin W → Fin 4 → α) (dy dx : ℤ)
    (background : Fin T → Fin H → Fin W → Fin 3 → α)
    (halpha : ∀ y x, watermark_alpha rgba y x < 1)
    (hrange : ∀ t y x c, 0 ≤ background t y x c ∧ background t y x c ≤ 1) :
    recover_background (alpha_composite (np_roll rgba (dy, dx)) background)
      (np_roll rgba (dy, dx)) = background := by
  funext t y x c
  have h := hrange t y x c
  have ha : watermark_alpha (np_roll rgba (dy, dx)) y x < 1 := halpha _ _
  have hne : (1 : α) - watermark_alpha (np_roll rgba (dy, dx)) y x ≠ 0 :=
    sub_ne_zero_of_ne ha.ne'
  simp only [recover_background, alpha_composite, clip]
  rw [add_sub_cancel_left, mul_div_cancel_left₀ _ hne,
    max_eq_left h.1, min_eq_left h.2]

/-- Witness for the amended C2 at a concrete input. -/
theorem recover_background_roundtrip_witness :
    (∀ y x, watermark_alpha wit_rgba y x < 1) ∧
    (∀ t y x c, 0 ≤ wit_frame t y x c ∧ wit_frame t y x c ≤ 1) ∧
    recover_background (alpha_composite (np_roll wit_rgba (1, 2)) wit_frame)
      (np_roll wit_rgba (1, 2)) = wit_frame :=
  ⟨by decide, by decide,
    recover_background_roundtrip wit_rgba 1 2 wit_frame (by decide) (by decide)⟩

/-- C3: for every correlation surface, the shift the detector returns is
`(dx, dy) = (max_x - W // 2, max_y - H // 2)` where `(max_y, max_x)` is
the position of the maximum of the surface, ties among equal maxima
broken by the first occurrence in row-major scan order (every strictly
earlier position holds a strictly smaller value); and `best_shift` is
exactly this computation applied to the cross-correlation surface. -/
theorem shift_from_corr_argmax {α : Type} [LinearOrder α]
    [∀ a b : α, Decidable (a ≤ b)] {H W : ℕ} (hH : 0 < H) (hW : 0 < W)
    (corr : Fin H → Fin W → α) :
    (∃ p : Fin H × Fin W,
      shift_from_corr corr =
        ((p.2.val : ℤ) - ((W / 2 : ℕ) : ℤ), (p.1.val : ℤ) - ((H / 2 : ℕ) : ℤ)) ∧
      (∀ q : Fin H × Fin W, corr q.1 q.2 ≤ corr p.1 p.2) ∧
      (∀ q : Fin H × Fin W, q.1.val * W + q.2.val < p.1.val * W + p.2.val →
        corr q.1 q.2 < corr p.1 p.2)) ∧
    (∀ frame watermark : Fin H → Fin W → ℝ,
      best_shift frame watermark = shift_from_corr (cross_corr frame watermark)) := by
  refine ⟨?_, fun frame watermark => rfl⟩
  have hne : Nonempty (Fin H × Fin W) := ⟨(⟨0, hH⟩, ⟨0, hW⟩)⟩
  obtain ⟨pm, hpm⟩ := Finite.exists_max fun p : Fin H × Fin W => corr p.1 p.2
  have hM : (maximizers corr).Nonempty :=
    ⟨pm, Finset.mem_filter.mpr ⟨Finset.mem_univ _, hpm⟩⟩
  have hF : (flat_ranks corr).Nonempty := hM.image _
  obtain ⟨p, hpM, hpr⟩ :=
    Finset.mem_image.mp (Finset.min'_mem (flat_ranks corr) hF)
  have hpmax : ∀ q : Fin H × Fin W, corr q.1 q.2 ≤ corr p.1 p.2 :=
    (Finset.mem_filter.mp hpM).2
  have hargmax : np_argmax corr = p.1.val * W + p.2.val := by
    rw [np_argmax, dif_pos hF, ← hpr]
  refine ⟨p, ?_, hpmax, ?_⟩
  · have hdiv : (p.1.val * W + p.2.val) / W = p.1.val := by
      rw [Nat.add_comm, Nat.add_mul_div_right _ _ hW, Nat.div_eq_of_lt p.2.isLt,
        Nat.zero_add]
    have hmod : (p.1.val * W + p.2.val) % W = p.2.val := by
      rw [Nat.add_comm, Nat.add_mul_mod_self_right, Nat.mod_eq_of_lt p.2.isLt]
    simp only [shift_from_corr, np_unravel_index, hargmax, hdiv, hmod]
  · intro q hqlt
    by_contra hnot
    push_neg at hnot
    have hqmax : ∀ q' : Fin H × Fin W, corr q'.1 q'.2 ≤ corr q.1 q.2 := fun q' =>
      le_trans (hpmax q') hnot
    have hqM : q ∈ maximizers corr :=
      Finset.mem_filter.mpr ⟨Finset.mem_univ _, hqmax⟩
    have hle : (flat_ranks corr).min' hF ≤ q.1.val * W + q.2.val :=
      Finset.min'_le _ _ (Finset.mem_image_of_mem _ hqM)
    rw [← hpr] at hle
    omega

/-- Witness for C3 on a concrete 2×2 surface with tied maxima. -/
theorem shift_from_corr_argmax_witness :
    (0 < 2 ∧ 0 < 2) ∧
    ((∃ p : Fin 2 × Fin 2,
      shift_from_corr wit_corr =
        ((p.2.val : ℤ) - ((2 / 2 : ℕ) : ℤ), (p.1.val : ℤ) - ((2 / 2 : ℕ) : ℤ)) ∧
      (∀ q : Fin 2 × Fin 2, wit_corr q.1 q.2 ≤ wit_corr p.1 p.2) ∧
      (∀ q : Fin 2 × Fin 2, q.1.val * 2 + q.2.val < p.1.val * 2 + p.2.val →
        wit_corr q.1 q.2 < wit_corr p.1 p.2)) ∧
    (∀ frame watermark : Fin 2 → Fin 2 → ℝ,
      best_shift frame watermark = shift_from_corr (cross_corr frame watermark))) :=
  ⟨⟨by decide, by decide⟩,
    shift_from_corr_argmax (by decide) (by decide) wit_corr⟩

theorem fft2_zero {H W : ℕ} : fft2 (fun _ _ => (0 : ℂ)) = fun (_ : Fin H) (_ : Fin W) => (0 : ℂ) := by
  funext k l
  simp [fft2]

theorem ifft2_zero {H W : ℕ} : ifft2 (fun _ _ => (0 : ℂ)) = fun (_ : Fin H) (_ : Fin W) => (0 : ℂ) := by
  funext y x
  simp [ifft2]

theorem cross_corr_zero_right {H W : ℕ} (img1 : Fin H → Fin W → ℝ) :
    cross_corr img1 (fun _ _ => 0) = fun _ _ => 0 := by
  funext i j
  simp [cross_corr, fft2_zero, ifft2_zero, fftshift]

theorem shift_from_corr_const {α : Type} [LinearOrder α]
    [∀ a b : α, Decidable (a ≤ b)] {H W : ℕ} (hH : 0 < H) (hW : 0 < W) (c : α) :
    shift_from_corr (fun (_ : Fin H) (_ : Fin W) => c) =
      (-((W / 2 : ℕ) : ℤ), -((H / 2 : ℕ) : ℤ)) := by
  have hmax : maximizers (fun (_ : Fin H) (_ : Fin W) => c) = Finset.univ :=
    Finset.filter_true_of_mem fun p _ => fun q => le_refl c
  have h0 : (0 : ℕ) ∈ flat_ranks (fun (_ : Fin H) (_ : Fin W) => c) := by
    simp only [flat_ranks, hmax]
    exact Finset.mem_image.mpr ⟨(⟨0, hH⟩, ⟨0, hW⟩), Finset.mem_univ _, by simp⟩
  have hF : (flat_ranks (fun (_ : Fin H) (_ : Fin W) => c)).Nonempty := ⟨0, h0⟩
  have hmin : (flat_ranks (fun (_ : Fin H) (_ : Fin W) => c)).min' hF = 0 :=
    Nat.le_zero.mp (Finset.min'_le _ _ h0)
  simp only [shift_from_corr, np_argmax, np_unravel_index]
  rw [dif_pos hF, hmin]
  simp

theorem cx_zwatermark_zero :
    (as_grayscale_image fun y x c => blend_images (1 / 2) cx_watermark y x c - 1 / 2) =
      fun _ _ => (0 : ℝ) := by
  funext y x
  have halpha : ∀ y x, watermark_alpha cx_watermark y x = 0 := by
    intro y x
    have h3 : ((3 : Fin 4)).val = 3 := rfl
    simp [cx_watermark, watermark_alpha, h3]
  simp [as_grayscale_image, blend_images, halpha]

/-- C2 (counterexample): a concrete instance of the round-trip claim —
background ≡ 1/2 on a single 2×2 frame, watermark alpha ≡ 0 (inside the
claim's allowed range [0,1)), composite synthesized with the watermark
rolled to shift (dx, dy) = (1, 0) — on which the detector does not return
(1, 0): the correlation surface is identically zero, so the argmax falls
at the origin and the detector returns (-1, -1). -/
theorem get_shifts_not_synthesis_shift :
    (∀ t y x c, 0 ≤ cx_background t y x c ∧ cx_background t y x c ≤ 1) ∧
    (∀ y x, 0 ≤ watermark_alpha cx_watermark y x ∧
      watermark_alpha cx_watermark y x < 1) ∧
    get_shifts
      (temporal_mean (alpha_composite (np_roll cx_watermark (0, 1)) cx_background))
      cx_watermark = (-1, -1) ∧
    ((-1 : ℤ), (-1 : ℤ)) ≠ ((1 : ℤ), (0 : ℤ)) := by
  refine ⟨?_, ?_, ?_, by decide⟩
  · intro t y x c
    constructor <;> norm_num [cx_background]
  · intro y x
    have h3 : ((3 : Fin 4)).val = 3 := rfl
    constructor <;> simp [cx_watermark, watermark_alpha, h3]
  · simp only [get_shifts]
    rw [cx_zwatermark_zero]
    simp only [best_shift]
    rw [cross_corr_zero_right, shift_from_corr_const (by norm_num) (by norm_num)]
    norm_num

/-- C5: the recovered video returned by `remove_watermark` has every
element in [0,1].  (Its shape, layout and scalar type equal the input's
by the very type of the definition.) -/
theorem remove_watermark_output_range {T H W a b : ℕ}
    (video : Fin T → Fin H → Fin W → Fin 3 → ℝ)
    (watermark_image : Fin (H + a) → Fin (W + b) → Fin 4 → ℝ) :
    ∀ t y x c, 0 ≤ remove_watermark video watermark_image t y x c ∧
      remove_watermark video watermark_image t y x c ≤ 1 := by
  intro t y x c
  simp only [remove_watermark, recover_background, clip]
  exact ⟨le_min (le_max_right _ _) zero_le_one, min_le_right _ _⟩

/-- C6: processing a channel-first (TCHW) video is the same as
transposing to channel-last (THWC), processing, and transposing back, so
the two layouts yield equal recovered data (exactly, hence within any
tolerance). -/
theorem remove_watermark_layout_roundtrip {T H W a b : ℕ}
    (video : Fin T → Fin 3 → Fin H → Fin W → ℝ)
    (watermark_image : Fin (H + a) → Fin (W + b) → Fin 4 → ℝ) :
    rearrange_tchw_to_thwc (remove_watermark_tchw video watermark_image) =
      remove_watermark (rearrange_tchw_to_thwc video) watermark_image := by
  funext t y x c
  rfl

/-- C7: an 8-bit integer video is divided by 255 before processing (a
floating video is passed through unchanged, by definition of
`remove_watermark`); in particular the constant integer video 128 is
processed exactly like the constant floating video 128/255. -/
theorem remove_watermark_uint8_normalization {T H W a b : ℕ}
    (video : Fin T → Fin H → Fin W → Fin 3 → Fin 256)
    (watermark_image : Fin (H + a) → Fin (W + b) → Fin 4 → ℝ) :
    remove_watermark_uint8 video watermark_image =
      remove_watermark (fun t y x c => (((video t y x c).val : ℝ) / 255))
        watermark_image ∧
    remove_watermark_uint8 (fun _ _ _ _ => (128 : Fin 256)) watermark_image =
      remove_watermark (fun (_ : Fin T) (_ : Fin H) (_ : Fin W) (_ : Fin 3) =>
        (128 : ℝ) / 255) watermark_image := by
  refine ⟨rfl, ?_⟩
  have h : (fun (_ : Fin T) (_ : Fin H) (_ : Fin W) (_ : Fin 3) =>
      (((128 : Fin 256)).val : ℝ) / 255) =
      (fun (_ : Fin T) (_ : Fin H) (_ : Fin W) (_ : Fin 3) => (128 : ℝ) / 255) := by
    funext t y x c
    have hv : ((128 : Fin 256)).val = 128 := by decide
    rw [hv]
    norm_num
  exact congrArg (fun v => remove_watermark v watermark_image) h

/-- C8: cropping the watermark template to h×w returns the exact top-left
h×w crop whenever both dimensions fit, and fails (returns the surfaced
error value `none`, never a padded template) whenever `h` or `w` exceeds
the template's dimensions. -/
theorem crop_to_contract {α : Type} {Hw Ww : ℕ} (tmpl : Fin Hw → Fin Ww → Fin 4 → α)
    (h w : ℕ) :
    (∀ (hh : h ≤ Hw) (hw : w ≤ Ww),
      crop_to tmpl h w =
        some (fun y x c => tmpl (Fin.castLE hh y) (Fin.castLE hw x) c)) ∧
    (¬(h ≤ Hw ∧ w ≤ Ww) → crop_to tmpl h w = none) := by
  constructor
  · intro hh hw
    rw [crop_to, dif_pos ⟨hh, hw⟩]
  · intro hc
    rw [crop_to, dif_neg hc]

/-- Witness for C8 on a concrete 2×3 template: a 1×2 crop succeeds with
the top-left values, a 3×2 crop (height exceeds the template) fails. -/
theorem crop_to_contract_witness :
    crop_to wit_tmpl 3 2 = none ∧
    crop_to wit_tmpl 1 2 =
      some (fun y x c =>
        wit_tmpl (Fin.castLE (by decide) y) (Fin.castLE (by decide) x) c) :=
  ⟨(crop_to_contract wit_tmpl 3 2).2 (by decide),
    (crop_to_contract wit_tmpl 1 2).1 (by decide) (by decide)⟩

/-- C9: every format-adapter operation — FFT, inverse FFT, spectrum
shift, clip, circular roll, default-layout inference and backend
conversion — answers an unsupported-backend error, and hence no result,
on any input that is neither a numpy array nor a torch tensor (for the
conversion: on either operand being unsupported). -/
theorem unsupported_backend_errors {H W T C : ℕ} (α : Type) (tag : String)
    (min_val max_val : ℝ) (s : ℤ × ℤ) (x : PyVal α) :
    py_fft2 (PyVal.unsupported tag : PyVal (Fin H → Fin W → ℂ)) =
      .error ("Unsupported input type: " ++ tag) ∧
    py_ifft2 (PyVal.unsupported tag : PyVal (Fin H → Fin W → ℂ)) =
      .error ("Unsupported input type: " ++ tag) ∧
    py_fftshift (PyVal.unsupported tag : PyVal (Fin H → Fin W → ℂ)) =
      .error ("Unsupported input type: " ++ tag) ∧
    py_clip (PyVal.unsupported tag : PyVal (Fin T → Fin H → Fin W → Fin C → ℝ))
        min_val max_val =
      .error ("Unsupported input type: " ++ tag) ∧
    py_roll (PyVal.unsupported tag : PyVal (Fin H → Fin W → Fin C → ℝ)) s =
      .error ("Unsupported input type: " ++ tag) ∧
    py_default_form (PyVal.unsupported tag : PyVal α) =
      .error ("Unsupported input type: " ++ tag) ∧
    py_like (PyVal.unsupported tag : PyVal α) x = .error "Unsupported input types" ∧
    py_like x (PyVal.unsupported tag : PyVal α) = .error "Unsupported input types" := by
  refine ⟨rfl, rfl, rfl, rfl, rfl, rfl, ?_, ?_⟩ <;> cases x <;> rfl

end RW
